import Mathlib

/-!
Verification of the express-serverless product-catalog API.

The definitions below are a shallow embedding of the TypeScript source:

* `src/api/services/supabase.service.ts` — `sanitizeSearchTerm`, the
  query construction of `supabaseService.getProducts`;
* `src/api/middleware/security.middleware.ts` — `enhancedCors`,
  `isFromSameDomain`, `rateLimitByOrigin`;
* `src/api/types/index.ts` — `requireAuth`, `requireAdmin`;
* `src/api/controllers/product.controller.ts` — `createProduct`,
  `updateProduct`, `deleteProduct`;
* `src/api/utils/validation.utils.ts` — `ValidationUtils.sanitizeNumber`,
  `sanitizeString`, `sanitizeHtml`.

JavaScript strings are modelled as `List Char` / `String`; JavaScript
numbers are modelled as exact rationals extended with `NaN` and the two
infinities (`JSNum`); absent values (`undefined` / missing header or
field) are modelled with `Option`.  The rational model is an
idealisation of the source's IEEE-754 double arithmetic: it is used only
at concrete inputs where the two provably agree, never to certify a
floating-point rounding law in general.
-/

/-! ### JavaScript string primitives -/

/-- Whitespace characters removed by JavaScript `String.prototype.trim`
(the ASCII subset that can occur in the inputs considered here). -/
def isJsWhitespace (c : Char) : Bool :=
  c = ' ' ∨ c = '\t' ∨ c = '\n' ∨ c = '\r' ∨ c = Char.ofNat 11 ∨ c = Char.ofNat 12

/-- Model of JavaScript `trim`: drop whitespace from both ends. -/
def trimJS (l : List Char) : List Char :=
  ((l.dropWhile isJsWhitespace).reverse.dropWhile isJsWhitespace).reverse

/-- Remove every occurrence of the two-character pattern `x y`, scanning
left to right without overlap — the behaviour of
`String.prototype.replace(/xy/g, '')` for a fixed two-character pattern. -/
def removePairAux (x y : Char) : Nat → List Char → List Char
  | 0, l => l
  | _ + 1, [] => []
  | fuel + 1, c1 :: rest =>
    match rest with
    | [] => [c1]
    | c2 :: rest2 =>
      if c1 = x ∧ c2 = y then removePairAux x y fuel rest2
      else c1 :: removePairAux x y fuel rest

/-- Remove every occurrence of the two-character pattern `x y`, scanning
left to right without overlap.  The fuel argument (initialised to the
list length, which every step strictly consumes) only makes the
recursion structural; it never runs out. -/
def removePair (x y : Char) (l : List Char) : List Char :=
  removePairAux x y l.length l

/-- Word characters of the JavaScript regex class `\w` (`[A-Za-z0-9_]`),
which also determines the word-boundary assertion `\b`. -/
def isWordChar (c : Char) : Bool :=
  c.isAlpha ∨ c.isDigit ∨ c = '_'

/-- Accumulating helper for `wordRuns`: `acc` holds the current run of
word characters in reverse order. -/
def wordRunsAux (acc : List Char) : List Char → List (List Char)
  | [] => if acc.isEmpty then [] else [acc.reverse]
  | c :: rest =>
    if isWordChar c then wordRunsAux (c :: acc) rest
    else if acc.isEmpty then wordRunsAux [] rest
    else acc.reverse :: wordRunsAux [] rest

/-- Maximal runs of `\w` characters in a string.  A pattern
`\bKEYWORD\b` (for an alphabetic `KEYWORD`) matches a string exactly when
one of its maximal word runs equals `KEYWORD` case-insensitively, because
both boundaries require a non-word neighbour (or the string edge). -/
def wordRuns (l : List Char) : List (List Char) :=
  wordRunsAux [] l

/-- The SQL reserved keywords of the regex in `sanitizeSearchTerm`
(`/\b(SELECT|INSERT|UPDATE|DELETE|DROP|UNION|ALTER|CREATE|EXEC|EXECUTE)\b/i`). -/
def sqlKeywords : List (List Char) :=
  ["SELECT", "INSERT", "UPDATE", "DELETE", "DROP", "UNION", "ALTER",
   "CREATE", "EXEC", "EXECUTE"].map String.toList

/-- Case-insensitive whole-word SQL-keyword test: the model of
`sqlKeywords.test(cleaned)` from `sanitizeSearchTerm`. -/
def containsSqlKeyword (l : List Char) : Bool :=
  (wordRuns l).any (fun run => sqlKeywords.contains (run.map Char.toUpper))

/-- The single-quote character, written by code point to keep the source
free of quote-escape literals. -/
def squoteChar : Char := Char.ofNat 39

/-- Model of the character-class removal
`term.replace(/[;'"\\]/g, '')` in `sanitizeSearchTerm`. -/
def stripDangerousChars (l : List Char) : List Char :=
  l.filter (fun c => !(c = ';' ∨ c = squoteChar ∨ c = '"' ∨ c = '\\'))

/-- The full cleaning pipeline of `sanitizeSearchTerm`: strip
`; ' " \`, then remove `--`, `/*`, `*/`, then trim — in the source's
order. -/
def cleanSearchTerm (l : List Char) : List Char :=
  trimJS (removePair '*' '/' (removePair '/' '*' (removePair '-' '-' (stripDangerousChars l))))

/-- Embedding of `sanitizeSearchTerm` from
`src/api/services/supabase.service.ts` (lines 40–56): clean the term,
return `none` if the cleaned term still contains a SQL keyword as a whole
word, otherwise return the cleaned term when non-empty. -/
def sanitizeSearchTerm (term : String) : Option String :=
  let cleaned := cleanSearchTerm term.toList
  if containsSqlKeyword cleaned then none
  else if cleaned.length > 0 then some (String.mk cleaned) else none

/-- Query construction of `supabaseService.getProducts`: the optional
`.or("title.ilike.%t%,author.ilike.%t%")` text filter that the function
adds to the base query.  `none` means the query carries no title/author
text filter.  Mirrors the JavaScript truthiness tests
`if (searchTerm)` and `if (sanitizedTerm)`. -/
def getProductsFilter (searchTerm : Option String) : Option String :=
  match searchTerm with
  | none => none
  | some s =>
    if s = "" then none
    else
      match sanitizeSearchTerm s with
      | none => none
      | some t => if t = "" then none else some t

/-! ### C1 theorems -/

/-- C1 counterexample: the search term `x"DELETE` contains `DELETE` as a
whole word (it is delimited by a double quote and the end of the string),
yet `sanitizeSearchTerm` returns `some "xDELETE"` — stripping the quote
merges `x` with `DELETE`, the cleaned string has no whole-word keyword —
and `getProducts` applies a text filter.  The claim, which quantifies
over the original term, is therefore false. -/
theorem C1_counterexample :
    containsSqlKeyword ("x\"DELETE".toList) = true ∧
    sanitizeSearchTerm "x\"DELETE" = some "xDELETE" ∧
    getProductsFilter (some "x\"DELETE") = some "xDELETE" := by
  refine ⟨by decide, ?_, ?_⟩ <;> decide

/-- C1 (amended): for every search term whose CLEANED form (after
removing `; ' " \`, the comment markers `--`, `/*`, `*/`, and trimming)
still contains a SQL reserved keyword as a whole word, `sanitizeSearchTerm`
returns `none` and `getProducts` applies no title/author text filter, so
the request behaves like an unfiltered list rather than an error. -/
theorem C1_sanitizer_rejects_keywords (term : String)
    (h : containsSqlKeyword (cleanSearchTerm term.toList) = true) :
    sanitizeSearchTerm term = none ∧ getProductsFilter (some term) = none := by
  have h2 : containsSqlKeyword (cleanSearchTerm term.data) = true := h
  have hsan : sanitizeSearchTerm term = none := by
    simp [sanitizeSearchTerm, h2]
  refine ⟨hsan, ?_⟩
  simp [getProductsFilter, hsan]

/-- C1 witness: the concrete term `DROP TABLE products` satisfies the
hypothesis and is rejected. -/
theorem C1_sanitizer_rejects_keywords_witness :
    sanitizeSearchTerm "DROP TABLE products" = none ∧
    getProductsFilter (some "DROP TABLE products") = none :=
  C1_sanitizer_rejects_keywords "DROP TABLE products" (by decide)

/-! ### Origin / CORS middleware (`src/api/middleware/security.middleware.ts`) -/

/-- Environment variables consumed by `getAllowedOrigins`. -/
structure Env where
  vercelUrl : Option String
  customDomain : Option String
deriving DecidableEq

/-- Embedding of `getAllowedOrigins`: the two fixed local-dev origins
plus the production origins derived from `VERCEL_URL` and
`CUSTOM_DOMAIN` when those are set (JavaScript truthiness: an empty
string counts as unset). -/
def getAllowedOrigins (env : Env) : List String :=
  ["http://localhost:3000", "http://127.0.0.1:3000"]
    ++ (match env.vercelUrl with
        | some v => if v = "" then [] else ["https://" ++ v]
        | none => [])
    ++ (match env.customDomain with
        | some d => if d = "" then [] else ["https://" ++ d]
        | none => [])

/-- Scheme characters allowed after the first character of a URL scheme. -/
def isSchemeChar (c : Char) : Bool :=
  c.isAlpha ∨ c.isDigit ∨ c = '+' ∨ c = '-' ∨ c = '.'

/-- Consume the tail of a scheme up to the colon; `none` when the string
has no valid `scheme:` prefix. -/
def schemeTail : List Char → Option (List Char)
  | [] => none
  | c :: rest => if c = ':' then some rest else if isSchemeChar c then schemeTail rest else none

/-- Split off a valid URL scheme (`[A-Za-z][A-Za-z0-9+.-]*:`), returning
what follows the colon. -/
def splitScheme : List Char → Option (List Char)
  | [] => none
  | c :: rest => if c.isAlpha then schemeTail rest else none

/-- Characters ending the authority (host) component of a URL. -/
def isAuthorityEnd (c : Char) : Bool :=
  c = '/' ∨ c = '?' ∨ c = '#'

/-- Model of the WHATWG `new URL(s)` constructor restricted to what
`isFromSameDomain` needs: `none` models the constructor throwing
(no valid scheme, or an authority that is empty or contains a space);
`some h` is the `.host` property (authority up to `/?#`, lower-cased,
port included).  URLs without `//` after the scheme are treated as
opaque-path URLs with an empty host. -/
def parseURLHost (s : String) : Option String :=
  match splitScheme s.toList with
  | none => none
  | some rest =>
    match rest with
    | '/' :: '/' :: rest2 =>
      let host := rest2.takeWhile (fun c => !isAuthorityEnd c)
      if host.isEmpty ∨ host.contains ' ' then none
      else some (String.mk (host.map Char.toLower))
    | _ => some ""

/-- Embedding of `isFromSameDomain(referer, req)`: `some b` is a normal
boolean return, `none` models the uncaught exception thrown by
`new URL(referer)` on an unparseable referer.  A missing (or falsy
empty) referer returns `false`; otherwise the referer's host is compared
with the `Host` header (`undefined` host compares unequal). -/
def isFromSameDomain (referer : Option String) (host : Option String) : Option Bool :=
  match referer with
  | none => some false
  | some r =>
    if r = "" then some false
    else
      match parseURLHost r with
      | none => none
      | some h => some (host = some h)

/-- Outcome of a middleware: respond with a status, fall through to
`next()`, or propagate a thrown exception. -/
inductive CorsAction where
  | respond (status : Nat)
  | next
  | throwErr
deriving DecidableEq

/-- Result of `enhancedCors`: the response headers assigned so far and
the control-flow action taken. -/
structure CorsResult where
  headers : List (String × String)
  action : CorsAction
deriving DecidableEq

/-- The request data `enhancedCors` reads: method and the `Origin`,
`Referer`, `Host` headers (`none` = header absent). -/
structure CorsReq where
  method : String
  origin : Option String
  referer : Option String
  host : Option String
deriving DecidableEq

/-- The three fixed CORS headers assigned after the origin check. -/
def corsCommonHeaders : List (String × String) :=
  [("Access-Control-Allow-Credentials", "true"),
   ("Access-Control-Allow-Methods", "GET, POST, PUT, DELETE, OPTIONS"),
   ("Access-Control-Allow-Headers",
    "Origin, X-Requested-With, Content-Type, Accept, Authorization, X-Frontend-Token")]

/-- The accepting branch of `enhancedCors`: assign the
`Access-Control-Allow-Origin` header and the three fixed headers, then
short-circuit with 200 for `OPTIONS` or fall through to `next()`. -/
def corsAccept (method acao : String) : CorsResult :=
  ⟨("Access-Control-Allow-Origin", acao) :: corsCommonHeaders,
   if method = "OPTIONS" then CorsAction.respond 200 else CorsAction.next⟩

/-- The rejecting branch of `enhancedCors`: 403 with no CORS headers. -/
def corsReject : CorsResult := ⟨[], CorsAction.respond 403⟩

/-- The `Origin` header under JavaScript truthiness: an empty-string
origin behaves exactly like an absent one in `enhancedCors`. -/
def originTruthy (req : CorsReq) : Option String :=
  match req.origin with
  | some o => if o = "" then none else some o
  | none => none

/-- The first guard of `enhancedCors`: `origin && allowedOrigins.includes(origin)`. -/
def originAllowedB (env : Env) (req : CorsReq) : Bool :=
  match originTruthy req with
  | some o => (getAllowedOrigins env).contains o
  | none => false

/-- Embedding of `enhancedCors` from
`src/api/middleware/security.middleware.ts` (lines 14–45).  NOTE the
source's order: the origin check (with its 403 rejection) runs BEFORE
the `OPTIONS` short-circuit. -/
def enhancedCors (env : Env) (req : CorsReq) : CorsResult :=
  match originTruthy req with
  | some o =>
    if (getAllowedOrigins env).contains o then corsAccept req.method o else corsReject
  | none =>
    match isFromSameDomain req.referer req.host with
    | none => ⟨[], CorsAction.throwErr⟩
    | some true => corsAccept req.method "*"
    | some false => corsReject

/-- An environment with neither production origin configured. -/
def envNoProd : Env := ⟨none, none⟩

/-! ### C2 theorems -/

/-- C2 counterexample: an `OPTIONS` preflight whose `Origin` is not in
the allow-list is rejected with 403, not answered with 200 — the origin
rejection runs before the preflight short-circuit, so the claim
"regardless of its Origin header" is false. -/
theorem C2_counterexample :
    enhancedCors envNoProd ⟨"OPTIONS", some "https://evil.example", none, some "example.com"⟩ =
      ⟨[], CorsAction.respond 403⟩ ∧
    CorsAction.respond 403 ≠ CorsAction.respond 200 := by
  refine ⟨by decide, by decide⟩

/-- C2 (amended): every `OPTIONS` request that passes the origin check —
its `Origin` is a non-empty allow-list entry, or it has no (or an empty)
`Origin` and a same-domain `Referer` — is answered 200 after the CORS
headers are assigned; `OPTIONS` requests failing the origin check are
rejected 403 like any other request. -/
theorem C2_preflight_200 (env : Env) (req : CorsReq) (hm : req.method = "OPTIONS")
    (hpass : originAllowedB env req = true ∨
      (originTruthy req = none ∧ isFromSameDomain req.referer req.host = some true)) :
    ∃ acao, enhancedCors env req =
      ⟨("Access-Control-Allow-Origin", acao) :: corsCommonHeaders, CorsAction.respond 200⟩ := by
  rcases hpass with hA | ⟨hO, hS⟩
  · rcases ht : originTruthy req with _ | o
    · simp [originAllowedB, ht] at hA
    · simp only [originAllowedB, ht] at hA
      have hA2 : o ∈ getAllowedOrigins env := by simpa using hA
      refine ⟨o, ?_⟩
      simp [enhancedCors, ht, hA2, corsAccept, hm]
  · refine ⟨"*", ?_⟩
    simp [enhancedCors, hO, hS, corsAccept, hm]

/-- C2 witness: a preflight from the allowed local-dev origin gets 200. -/
theorem C2_preflight_200_witness :
    ∃ acao, enhancedCors envNoProd ⟨"OPTIONS", some "http://localhost:3000", none, none⟩ =
      ⟨("Access-Control-Allow-Origin", acao) :: corsCommonHeaders, CorsAction.respond 200⟩ :=
  C2_preflight_200 envNoProd ⟨"OPTIONS", some "http://localhost:3000", none, none⟩
    rfl (Or.inl (by decide))

/-! ### C4 theorems -/

/-- C4 counterexample: a `GET` request with no `Origin` and the
unparseable referer `not a url` makes `new URL(referer)` throw inside
`isFromSameDomain`, so `enhancedCors` propagates an exception instead of
responding 403 — the claim's "including requests whose Referer is not a
parseable URL" is false. -/
theorem C4_counterexample :
    enhancedCors envNoProd ⟨"GET", none, some "not a url", some "example.com"⟩ =
      ⟨[], CorsAction.throwErr⟩ ∧
    CorsAction.throwErr ≠ CorsAction.respond 403 := by
  refine ⟨by decide, by decide⟩

/-- C4 (amended): for a non-`OPTIONS` request failing the origin check:
a request with a truthy but unrecognised `Origin` gets 403 regardless of
its referer; a request with no (or empty) `Origin` gets 403 whenever
`isFromSameDomain` returns `false` (referer absent, or parseable with a
host differing from the `Host` header); but when such a request carries
an unparseable referer the middleware throws instead of responding 403. -/
theorem C4_reject_403 (env : Env) (req : CorsReq) (hm : req.method ≠ "OPTIONS")
    (hfail : originAllowedB env req = false) :
    ((∃ o, originTruthy req = some o) → enhancedCors env req = corsReject) ∧
    (originTruthy req = none →
      (isFromSameDomain req.referer req.host = some false → enhancedCors env req = corsReject) ∧
      (isFromSameDomain req.referer req.host = none →
        enhancedCors env req = ⟨[], CorsAction.throwErr⟩)) := by
  constructor
  · rintro ⟨o, ho⟩
    simp only [originAllowedB, ho] at hfail
    have hfail2 : o ∉ getAllowedOrigins env := by simpa using hfail
    simp [enhancedCors, ho, hfail2]
  · intro hO
    constructor
    · intro hS
      simp [enhancedCors, hO, hS]
    · intro hS
      simp [enhancedCors, hO, hS]

/-- C4 witness: a `GET` with no `Origin` and a parseable referer whose
host differs from the request `Host` is rejected 403. -/
theorem C4_reject_403_witness :
    enhancedCors envNoProd ⟨"GET", none, some "https://other.example/page", some "example.com"⟩ =
      corsReject :=
  ((C4_reject_403 envNoProd ⟨"GET", none, some "https://other.example/page", some "example.com"⟩
    (by decide) (by decide)).2 rfl).1 (by decide)

/-! ### Rate limiter (`rateLimitByOrigin`, `src/api/middleware/security.middleware.ts` lines 78–102) -/

/-- The per-identifier record stored in the `requestCounts` map:
`{ count, resetTime }`.  Times are modelled as naturals
(milliseconds since the epoch, as `Date.now()` returns). -/
structure RateRecord where
  count : Nat
  resetTime : Nat
deriving DecidableEq

/-- Outcome of the rate-limit middleware for one request: fall through
to `next()`, or respond 429. -/
inductive RateOutcome where
  | pass
  | reject
deriving DecidableEq

/-- Embedding of one invocation of the middleware returned by
`rateLimitByOrigin(maxRequests, windowMs)` for a fixed identifier:
given the current time and the identifier's stored record (`none` when
the map holds no entry), return the updated record and the outcome.
Mirrors the source exactly: fresh window (`count = 1`) when there is no
record or `now > resetTime`; 429 without mutation when
`count >= maxRequests`; otherwise `count++` and pass. -/
def rateLimitStep (maxRequests windowMs now : Nat) (st : Option RateRecord) :
    Option RateRecord × RateOutcome :=
  match st with
  | none => (some ⟨1, now + windowMs⟩, RateOutcome.pass)
  | some current =>
    if now > current.resetTime then (some ⟨1, now + windowMs⟩, RateOutcome.pass)
    else if current.count ≥ maxRequests then (some current, RateOutcome.reject)
    else (some ⟨current.count + 1, current.resetTime⟩, RateOutcome.pass)

/-- Process a sequence of requests (their arrival times) for one
identifier, threading the stored record and collecting the outcomes. -/
def rateLimitRun (maxRequests windowMs : Nat) (st : Option RateRecord) :
    List Nat → Option RateRecord × List RateOutcome
  | [] => (st, [])
  | t :: ts =>
    let out := rateLimitStep maxRequests windowMs t st
    let rest := rateLimitRun maxRequests windowMs out.1 ts
    (rest.1, out.2 :: rest.2)

/-- In-window requests below the maximum all pass, incrementing the
count by one each and keeping the reset timestamp. -/
theorem rateLimitRun_in_window (maxRequests windowMs reset : Nat) :
    ∀ (ts : List Nat) (c : Nat), (∀ t ∈ ts, t ≤ reset) → c + ts.length ≤ maxRequests →
      rateLimitRun maxRequests windowMs (some ⟨c, reset⟩) ts =
        (some ⟨c + ts.length, reset⟩, List.replicate ts.length RateOutcome.pass) := by
  intro ts
  induction ts with
  | nil => intro c _ _; simp [rateLimitRun]
  | cons t ts ih =>
    intro c hin hle
    have hle2 : c + (ts.length + 1) ≤ maxRequests := by simpa using hle
    have ht : t ≤ reset := hin t (by simp)
    have hstep : rateLimitStep maxRequests windowMs t (some ⟨c, reset⟩) =
        (some ⟨c + 1, reset⟩, RateOutcome.pass) := by
      have h1 : ¬ t > reset := by omega
      have h2 : ¬ c ≥ maxRequests := by omega
      simp [rateLimitStep, h1, h2]
    have hrest := ih (c + 1) (fun x hx => hin x (by simp [hx])) (by omega)
    have hc : c + 1 + ts.length = c + (ts.length + 1) := by omega
    simp [rateLimitRun, hstep, hrest, List.replicate_succ, hc]

/-! ### C3 theorems -/

/-- C3: with the limiter configured to `maxRequests ≥ 1` per window
`windowMs`, starting from no stored record: the first request (at `t0`)
opens a window with reset timestamp `t0 + windowMs`; it and the
following `maxRequests - 1` requests arriving at or before that
timestamp all pass, leaving a stored count of `maxRequests`; the
`(maxRequests+1)`-th request within the same window is rejected with 429
and leaves the record unchanged; and any request arriving strictly after
the reset timestamp starts a fresh window with count 1 and passes. -/
theorem C3_rate_limit_window (maxRequests windowMs t0 t1 t2 : Nat) (ts : List Nat)
    (hmax : 1 ≤ maxRequests) (hlen : ts.length = maxRequests - 1)
    (hin : ∀ t ∈ ts, t ≤ t0 + windowMs) (h1 : t1 ≤ t0 + windowMs)
    (h2 : t0 + windowMs < t2) :
    rateLimitRun maxRequests windowMs none (t0 :: ts) =
      (some ⟨maxRequests, t0 + windowMs⟩, List.replicate maxRequests RateOutcome.pass) ∧
    rateLimitStep maxRequests windowMs t1 (some ⟨maxRequests, t0 + windowMs⟩) =
      (some ⟨maxRequests, t0 + windowMs⟩, RateOutcome.reject) ∧
    rateLimitStep maxRequests windowMs t2 (some ⟨maxRequests, t0 + windowMs⟩) =
      (some ⟨1, t2 + windowMs⟩, RateOutcome.pass) := by
  refine ⟨?_, ?_, ?_⟩
  · have hfirst : rateLimitStep maxRequests windowMs t0 none =
        (some ⟨1, t0 + windowMs⟩, RateOutcome.pass) := by
      simp [rateLimitStep]
    have hrest := rateLimitRun_in_window maxRequests windowMs (t0 + windowMs) ts 1 hin
      (by omega)
    have hm1 : 1 + ts.length = maxRequests := by omega
    have hmr : maxRequests = ts.length + 1 := by omega
    simp [rateLimitRun, hfirst, hrest]
    constructor
    · omega
    · rw [hmr, List.replicate_succ]
  · have h1n : ¬ t1 > t0 + windowMs := by omega
    simp [rateLimitStep, h1n]
  · have h2y : t2 > t0 + windowMs := h2
    simp [rateLimitStep, h2y]

/-- C3 witness: limit 2 per 100 ms; requests at 0 and 50 pass, a third
at 60 is rejected, and one at 101 opens a fresh window. -/
theorem C3_rate_limit_window_witness :
    rateLimitRun 2 100 none [0, 50] =
      (some ⟨2, 100⟩, List.replicate 2 RateOutcome.pass) ∧
    rateLimitStep 2 100 60 (some ⟨2, 100⟩) = (some ⟨2, 100⟩, RateOutcome.reject) ∧
    rateLimitStep 2 100 101 (some ⟨2, 100⟩) = (some ⟨1, 201⟩, RateOutcome.pass) :=
  C3_rate_limit_window 2 100 0 60 101 [50] (by decide) (by decide)
    (by intro t ht; simp at ht; omega) (by decide) (by decide)

/-! ### C10 theorems -/

/-- A stored record (when present) has a count within the configured
maximum. -/
def rateCountBounded (maxRequests : Nat) (st : Option RateRecord) : Prop :=
  ∀ r, st = some r → r.count ≤ maxRequests

/-- C10 counterexample: with the limiter configured to a maximum of 0
requests, the very first request opens a fresh window and stores
`count = 1`, which exceeds the configured maximum — so "the stored count
never exceeds the configured maximum" fails as stated for arbitrary
configurations. -/
theorem C10_counterexample :
    rateLimitStep 0 900000 0 none = (some ⟨1, 900000⟩, RateOutcome.pass) ∧ 1 > 0 := by
  exact ⟨by decide, by decide⟩

/-- C10 (amended): provided the configured maximum is at least 1, after
any sequence of requests the stored count never exceeds the configured
maximum; a rejected (429) request never mutates the stored record; and
an in-window request with `count ≥ maxRequests` is rejected — the count
is incremented only on requests that pass. -/
theorem C10_count_invariant (maxRequests windowMs : Nat) (hmax : 1 ≤ maxRequests) :
    (∀ (ts : List Nat) (st : Option RateRecord), rateCountBounded maxRequests st →
      rateCountBounded maxRequests (rateLimitRun maxRequests windowMs st ts).1) ∧
    (∀ now st, (rateLimitStep maxRequests windowMs now st).2 = RateOutcome.reject →
      (rateLimitStep maxRequests windowMs now st).1 = st) ∧
    (∀ now r, ¬ now > r.resetTime → r.count ≥ maxRequests →
      rateLimitStep maxRequests windowMs now (some r) = (some r, RateOutcome.reject)) := by
  have hstep : ∀ now st, rateCountBounded maxRequests st →
      rateCountBounded maxRequests (rateLimitStep maxRequests windowMs now st).1 := by
    intro now st hb r hr
    match st with
    | none =>
      have he : (rateLimitStep maxRequests windowMs now none).1 =
          some ⟨1, now + windowMs⟩ := rfl
      rw [he] at hr
      injection hr with h
      subst h
      simpa using hmax
    | some cur =>
      by_cases hnow : now > cur.resetTime
      · have he : (rateLimitStep maxRequests windowMs now (some cur)).1 =
            some ⟨1, now + windowMs⟩ := by simp [rateLimitStep, hnow]
        rw [he] at hr
        injection hr with h
        subst h
        simpa using hmax
      · by_cases hcnt : cur.count ≥ maxRequests
        · have he : (rateLimitStep maxRequests windowMs now (some cur)).1 = some cur := by
            simp [rateLimitStep, hnow, hcnt]
          rw [he] at hr
          injection hr with h
          subst h
          exact hb cur rfl
        · have he : (rateLimitStep maxRequests windowMs now (some cur)).1 =
              some ⟨cur.count + 1, cur.resetTime⟩ := by
            simp [rateLimitStep, hnow, hcnt]
          rw [he] at hr
          injection hr with h
          subst h
          show cur.count + 1 ≤ maxRequests
          omega
  refine ⟨?_, ?_, ?_⟩
  · intro ts
    induction ts with
    | nil => intro st hb; simpa [rateLimitRun] using hb
    | cons t ts ih =>
      intro st hb
      simp only [rateLimitRun]
      exact ih _ (hstep t st hb)
  · intro now st hrej
    match st with
    | none => simp [rateLimitStep] at hrej
    | some cur =>
      by_cases hnow : now > cur.resetTime
      · simp [rateLimitStep, hnow] at hrej
      · by_cases hcnt : cur.count ≥ maxRequests
        · simp [rateLimitStep, hnow, hcnt]
        · simp [rateLimitStep, hnow, hcnt] at hrej
  · intro now r hnow hcnt
    simp [rateLimitStep, hnow, hcnt]

/-- C10 witness: with limit 1 per 10 ms, after requests at 0, 1, 2 the
stored count stays within the maximum. -/
theorem C10_count_invariant_witness :
    rateCountBounded 1 (rateLimitRun 1 10 none [0, 1, 2]).1 :=
  (C10_count_invariant 1 10 (by decide)).1 [0, 1, 2] none (fun r hr => by cases hr)

/-! ### JavaScript numbers and `ValidationUtils` (`src/api/utils/validation.utils.ts`) -/

/-- JavaScript numbers, modelled as exact rationals extended with `NaN`
and the two infinities.  (The embedding treats arithmetic as exact; the
claims below quote the source's formulas, which this model evaluates
without floating-point rounding of intermediates.) -/
inductive JSNum where
  | fin (q : ℚ)
  | nan
  | inf
  | ninf
deriving DecidableEq

/-- The JavaScript values `sanitizeNumber` can receive: `null`,
`undefined`, a string, a number, or a boolean. -/
inductive JSVal where
  | vnull
  | vundef
  | vstr (s : String)
  | vnum (n : JSNum)
  | vbool (b : Bool)
deriving DecidableEq

/-- Read a run of decimal digits: accumulated value, number of digits
read, and the remaining input. -/
def readDigitsAux (acc : Nat) (n : Nat) : List Char → Nat × Nat × List Char
  | [] => (acc, n, [])
  | c :: rest =>
    if c.isDigit then readDigitsAux (acc * 10 + (c.toNat - 48)) (n + 1) rest
    else (acc, n, c :: rest)

/-- Read an optionally signed exponent after `e`/`E`; an exponent with
no digits is ignored (contributing 0), as `parseFloat` ignores a
trailing incomplete exponent. -/
def readExp (l : List Char) : ℤ :=
  match l with
  | '-' :: rest =>
    let r := readDigitsAux 0 0 rest
    if r.2.1 = 0 then 0 else -(r.1 : ℤ)
  | '+' :: rest =>
    let r := readDigitsAux 0 0 rest
    if r.2.1 = 0 then 0 else (r.1 : ℤ)
  | _ =>
    let r := readDigitsAux 0 0 l
    if r.2.1 = 0 then 0 else (r.1 : ℤ)

/-- Model of JavaScript `parseFloat` on a string: skip leading
whitespace, read an optional sign, accept an `Infinity` prefix, else
read `digits [. digits] [e/E [sign] digits]` as the longest valid
prefix; `NaN` when no digit is found.  Idealisation: this returns the
EXACT decimal rational, whereas the source's `parseFloat` rounds it to
the nearest IEEE-754 double; the model is therefore only used at
concrete inputs whose value survives that rounding. -/
def parseFloatStr (s : String) : JSNum :=
  let l := s.toList.dropWhile isJsWhitespace
  let signed : ℚ × List Char :=
    match l with
    | '-' :: rest => (-1, rest)
    | '+' :: rest => (1, rest)
    | _ => (1, l)
  let sign := signed.1
  let l2 := signed.2
  if "Infinity".toList.isPrefixOf l2 then
    if sign = 1 then JSNum.inf else JSNum.ninf
  else
    let ipart := readDigitsAux 0 0 l2
    let fpart : Nat × Nat × List Char :=
      match ipart.2.2 with
      | '.' :: rest => readDigitsAux 0 0 rest
      | _ => (0, 0, ipart.2.2)
    if ipart.2.1 + fpart.2.1 = 0 then JSNum.nan
    else
      let mant : ℚ := sign * ((ipart.1 : ℚ) + (fpart.1 : ℚ) / 10 ^ fpart.2.1)
      let e : ℤ :=
        match fpart.2.2 with
        | 'e' :: rest => readExp rest
        | 'E' :: rest => readExp rest
        | _ => 0
      JSNum.fin (mant * 10 ^ e)

/-- Model of `parseFloat(input)` for the values `sanitizeNumber` can
see: a number parses to itself (via its string representation, exact in
this model); `null`, `undefined` and booleans stringify to non-numeric
text and give `NaN`. -/
def parseFloatJS : JSVal → JSNum
  | JSVal.vstr s => parseFloatStr s
  | JSVal.vnum n => n
  | JSVal.vnull => JSNum.nan
  | JSVal.vundef => JSNum.nan
  | JSVal.vbool _ => JSNum.nan

/-- JavaScript `Math.round`: round half toward positive infinity. -/
def jsMathRound (q : ℚ) : ℤ := ⌊q + 1 / 2⌋

/-- Embedding of `ValidationUtils.sanitizeNumber`
(`src/api/utils/validation.utils.ts` lines 59–69): `null` on
null/undefined/empty-string input, on a `NaN` or non-finite parse, and
on values outside ±999,999,999; otherwise `Math.round(num * 100) / 100`.
Idealisation: the source evaluates this formula in IEEE-754 doubles,
where intermediate rounding can change the result (e.g. the real code
maps `1.005` to 1.00 because `1.005 * 100` is `100.49999999999999` in
doubles, while exact arithmetic gives 1.01); this exact-rational model
is therefore only used at concrete inputs — such as 10.005, where
`10.005 * 100` is `1000.5000000000001` in doubles — on which it
provably agrees with the double computation. -/
def sanitizeNumber (input : JSVal) : Option ℚ :=
  if input = JSVal.vnull ∨ input = JSVal.vundef ∨ input = JSVal.vstr "" then none
  else
    match parseFloatJS input with
    | JSNum.nan => none
    | JSNum.inf => none
    | JSNum.ninf => none
    | JSNum.fin q =>
      if q > 999999999 ∨ q < -999999999 then none
      else some ((jsMathRound (q * 100) : ℚ) / 100)

/-- Embedding of `ValidationUtils.sanitizeHtml` restricted to string (or
absent) input: strip angle brackets, remove `javascript:`
case-insensitively, remove inline event-handler patterns (`on\w+=`),
trim. -/
def toLowerList (l : List Char) : List Char := l.map Char.toLower

/-- Remove every occurrence of the (lower-case) pattern,
case-insensitively, scanning the input left to right without
re-examining replaced regions — the behaviour of a global
`replace(/pat/gi, '')`.  Fuel is the input length. -/
def removeCI (pat : List Char) : Nat → List Char → List Char
  | 0, l => l
  | _ + 1, [] => []
  | fuel + 1, c :: rest =>
    if toLowerList (List.take pat.length (c :: rest)) = pat then
      removeCI pat fuel (List.drop pat.length (c :: rest))
    else c :: removeCI pat fuel rest

/-- Length of the leading `\w` run. -/
def wordRunLen : List Char → Nat
  | [] => 0
  | c :: rest => if isWordChar c then wordRunLen rest + 1 else 0

/-- Length of an `on\w+=` match starting at the head of the list (the
regex `/on\w+=/gi`): case-insensitive `on`, at least one word character,
then `=` (since `=` is not a word character, the greedy `\w+` match
succeeds exactly when `=` follows the full word run). -/
def onHandlerLen (l : List Char) : Option Nat :=
  match l with
  | c1 :: c2 :: rest =>
    if c1.toLower = 'o' ∧ c2.toLower = 'n' then
      let r := wordRunLen rest
      if 1 ≤ r ∧ (rest.drop r).head? = some '=' then some (2 + r + 1) else none
    else none
  | _ => none

/-- Remove every `on\w+=` occurrence, scanning left to right. -/
def removeOnHandlers : Nat → List Char → List Char
  | 0, l => l
  | _ + 1, [] => []
  | fuel + 1, c :: rest =>
    match onHandlerLen (c :: rest) with
    | some k => removeOnHandlers fuel (List.drop k (c :: rest))
    | none => c :: removeOnHandlers fuel rest

/-- Embedding of `ValidationUtils.sanitizeHtml`
(`src/api/utils/validation.utils.ts` lines 10–18), restricted to
string-or-absent input (the `typeof` guard): falsy input gives the empty
string; otherwise strip `<>`, remove `javascript:` (case-insensitive),
remove `on\w+=` event-handler patterns, and trim. -/
def sanitizeHtml (input : Option String) : String :=
  match input with
  | none => ""
  | some s =>
    if s = "" then ""
    else
      let l1 := s.toList.filter (fun c => !(c = '<' ∨ c = '>'))
      let l2 := removeCI "javascript:".toList l1.length l1
      let l3 := removeOnHandlers l2.length l2
      String.mk (trimJS l3)

/-- Embedding of `ValidationUtils.sanitizeString`
(`src/api/utils/validation.utils.ts` lines 46–54), restricted to
string-or-absent input: falsy input gives the empty string; otherwise
remove `< > ' "`, trim, and truncate to `maxLength`. -/
def sanitizeString (input : Option String) (maxLength : Nat) : String :=
  match input with
  | none => ""
  | some s =>
    if s = "" then ""
    else
      let l := s.toList.filter (fun c => !(c = '<' ∨ c = '>' ∨ c = squoteChar ∨ c = '"'))
      String.mk ((trimJS l).take maxLength)

/-! ### Auth middleware (`src/api/types/index.ts`) and product controllers
(`src/api/controllers/product.controller.ts`) -/

/-- The slice of a Supabase user object that `requireAdmin` reads:
`user_metadata?.role` and `app_metadata?.role` (`none` when the metadata
object or its `role` field is absent). -/
structure UserRec where
  userMetadataRole : Option String
  appMetadataRole : Option String
deriving DecidableEq

/-- The role read by `requireAdmin`:
`req.user.user_metadata?.role || req.user.app_metadata?.role` — the
app-metadata fallback applies when the user-metadata role is absent or
falsy (the empty string). -/
def roleOf (u : UserRec) : Option String :=
  match u.userMetadataRole with
  | some r => if r = "" then u.appMetadataRole else some r
  | none => u.appMetadataRole

/-- Outcome of `requireAuth`: an error response, or proceed with the
verified user and token attached to the request. -/
inductive AuthOutcome where
  | respond (status : Nat)
  | proceed (user : UserRec) (token : String)
deriving DecidableEq

/-- Embedding of `requireAuth` (`src/api/types/index.ts` lines 49–83).
`verify` is the oracle for `supabaseService.verifyToken` (`none` models
an error or missing user).  A missing, empty, or non-`Bearer ` header is
401; the token is the header with the 7-character `Bearer ` prefix
removed. -/
def requireAuth (authHeader : Option String) (verify : String → Option UserRec) : AuthOutcome :=
  match authHeader with
  | none => AuthOutcome.respond 401
  | some h =>
    if "Bearer ".toList.isPrefixOf h.toList then
      match verify (String.mk (h.toList.drop 7)) with
      | none => AuthOutcome.respond 401
      | some u => AuthOutcome.proceed u (String.mk (h.toList.drop 7))
    else AuthOutcome.respond 401

/-- Outcome of `requireAdmin`: an error response or `next()`. -/
inductive AdminOutcome where
  | respond (status : Nat)
  | next
deriving DecidableEq

/-- Embedding of `requireAdmin` (`src/api/types/index.ts` lines 89–109):
401 with no user attached; 403 unless the role resolved from metadata is
exactly `admin`; otherwise `next()`. -/
def requireAdmin (user : Option UserRec) : AdminOutcome :=
  match user with
  | none => AdminOutcome.respond 401
  | some u => if roleOf u = some "admin" then AdminOutcome.next else AdminOutcome.respond 403

/-- The parsed request body for product writes, typed as the source's
`CreateProductData` with the fields the controllers and sanitizers
inspect; `extra` carries any remaining JSON properties, which the
controllers never touch.  Absent fields are `none`; fields present are
assumed to carry values of their declared types. -/
structure CreateProductData where
  title : Option String
  author : Option String
  price : Option JSNum
  description : Option String
  extra : List (String × String)
deriving DecidableEq

/-- JavaScript truthiness of an optional string (empty string falsy). -/
def strTruthy : Option String → Bool
  | some s => s ≠ ""
  | none => false

/-- JavaScript truthiness of an optional number (`0` and `NaN` falsy). -/
def numTruthy : Option JSNum → Bool
  | some (JSNum.fin q) => q ≠ 0
  | some JSNum.nan => false
  | some JSNum.inf => true
  | some JSNum.ninf => true
  | none => false

/-- The JavaScript comparison `price <= 0` on an optional number
(`undefined` and `NaN` compare false). -/
def numLE0 : Option JSNum → Bool
  | some (JSNum.fin q) => q ≤ 0
  | some JSNum.ninf => true
  | _ => false

/-- Result of the backend call made by a controller. -/
inductive BackendResult where
  | ok
  | err
deriving DecidableEq

/-- A row returned by `supabaseService.getProductById`. -/
structure ProductRow where
  id : ℤ
deriving DecidableEq

/-- Response of a create/update controller: HTTP status and the payload
passed to the backend write call, `none` when no backend write was
made. -/
structure ControllerResult where
  status : Nat
  backendCall : Option CreateProductData
deriving DecidableEq

/-- Embedding of `productController.createProduct`
(`src/api/controllers/product.controller.ts` lines 82–125): 400 when
title, author or price is falsy; 400 when `price <= 0`; otherwise the
body is passed — unchanged — to `supabaseService.createProduct`, and the
response is 201 on success, 500 on a backend error. -/
def createProduct (body : CreateProductData) (backend : BackendResult) : ControllerResult :=
  if !strTruthy body.title || !strTruthy body.author || !numTruthy body.price then
    ⟨400, none⟩
  else if numLE0 body.price then ⟨400, none⟩
  else ⟨(match backend with | BackendResult.err => 500 | BackendResult.ok => 201), some body⟩

/-- Model of JavaScript `parseInt(s, 10)`: skip leading whitespace, read
an optional sign and a decimal-digit prefix; `none` models `NaN`. -/
def parseIntJS (s : String) : Option ℤ :=
  let l := s.toList.dropWhile isJsWhitespace
  let signed : ℤ × List Char :=
    match l with
    | '-' :: rest => (-1, rest)
    | '+' :: rest => (1, rest)
    | _ => (1, l)
  let r := readDigitsAux 0 0 signed.2
  if r.2.1 = 0 then none else some (signed.1 * (r.1 : ℤ))

/-- Response of the update controller: HTTP status and the `(id, body)`
passed to `supabaseService.updateProduct`, `none` when no backend write
was made. -/
structure UpdateControllerResult where
  status : Nat
  backendCall : Option (ℤ × CreateProductData)
deriving DecidableEq

/-- Embedding of `productController.updateProduct`
(`src/api/controllers/product.controller.ts` lines 128–182): 400 on an
invalid id or on a provided `price <= 0`; 404 when the existence lookup
(`lookup`, the oracle for `supabaseService.getProductById`) returns no
row; otherwise the body is passed — unchanged — to
`supabaseService.updateProduct` (200 on success, 500 on error). -/
def updateProduct (idStr : String) (body : CreateProductData) (lookup : Option ProductRow)
    (backend : BackendResult) : UpdateControllerResult :=
  match parseIntJS idStr with
  | none => ⟨400, none⟩
  | some id =>
    if id ≤ 0 then ⟨400, none⟩
    else if numLE0 body.price then ⟨400, none⟩
    else
      match lookup with
      | none => ⟨404, none⟩
      | some _ =>
        ⟨(match backend with | BackendResult.err => 500 | BackendResult.ok => 200),
         some (id, body)⟩

/-- Response of the delete controller: HTTP status and whether
`supabaseService.deleteProduct` was invoked. -/
structure DeleteControllerResult where
  status : Nat
  deleteCalled : Bool
deriving DecidableEq

/-- Embedding of `productController.deleteProduct`
(`src/api/controllers/product.controller.ts` lines 185–228): 400 on an
invalid or non-positive id; 404 — without calling the backend delete —
when the existence lookup returns no row; otherwise
`supabaseService.deleteProduct` is invoked (200 on success, 500 on
error). -/
def deleteProduct (idStr : String) (lookup : Option ProductRow)
    (backend : BackendResult) : DeleteControllerResult :=
  match parseIntJS idStr with
  | none => ⟨400, false⟩
  | some id =>
    if id ≤ 0 then ⟨400, false⟩
    else
      match lookup with
      | none => ⟨404, false⟩
      | some _ =>
        ⟨(match backend with | BackendResult.err => 500 | BackendResult.ok => 200), true⟩

/-- The `POST /api/products` pipeline from `products.routes.ts`:
`requireAuth`, then `requireAdmin`, then the create controller. -/
def postProductsPipeline (authHeader : Option String) (verify : String → Option UserRec)
    (body : CreateProductData) (backend : BackendResult) : ControllerResult :=
  match requireAuth authHeader verify with
  | AuthOutcome.respond s => ⟨s, none⟩
  | AuthOutcome.proceed u _ =>
    match requireAdmin (some u) with
    | AdminOutcome.respond s => ⟨s, none⟩
    | AdminOutcome.next => createProduct body backend

/-! ### C5 theorems -/

/-- C5: `requireAdmin` responds 401 with no user attached; with a user
it resolves the role from `user_metadata.role` falling back to
`app_metadata.role`, responds 403 unless that role is exactly `admin`,
and otherwise calls `next()`; composed in the `POST /products` pipeline
after `requireAuth`, an authenticated non-admin gets 403 with no backend
call, while an admin with a well-formed payload gets 201 (on backend
success) with the body forwarded. -/
theorem C5_admin_gate (u : UserRec) (h : String) (verify : String → Option UserRec)
    (body : CreateProductData) (backend : BackendResult)
    (hpre : "Bearer ".toList.isPrefixOf h.toList = true)
    (hver : verify (String.mk (h.toList.drop 7)) = some u) :
    requireAdmin none = AdminOutcome.respond 401 ∧
    (roleOf u ≠ some "admin" →
      requireAdmin (some u) = AdminOutcome.respond 403 ∧
      postProductsPipeline (some h) verify body backend = ⟨403, none⟩) ∧
    (roleOf u = some "admin" →
      requireAdmin (some u) = AdminOutcome.next ∧
      (strTruthy body.title = true → strTruthy body.author = true →
        numTruthy body.price = true → numLE0 body.price = false →
        backend = BackendResult.ok →
        postProductsPipeline (some h) verify body backend = ⟨201, some body⟩)) := by
  have hauth : requireAuth (some h) verify =
      AuthOutcome.proceed u (String.mk (h.toList.drop 7)) := by
    simp only [requireAuth]
    rw [hpre, if_pos rfl, hver]
  refine ⟨rfl, ?_, ?_⟩
  · intro hrole
    constructor
    · simp [requireAdmin, hrole]
    · rw [postProductsPipeline, hauth]
      simp [requireAdmin, hrole]
  · intro hrole
    constructor
    · simp [requireAdmin, hrole]
    · intro ht ha hp hle hbk
      subst hbk
      rw [postProductsPipeline, hauth]
      simp [requireAdmin, hrole, createProduct, ht, ha, hp, hle]

/-- C5 witness: a verified admin user posting a well-formed product gets
201 with the body forwarded. -/
theorem C5_admin_gate_witness :
    postProductsPipeline (some "Bearer tok") (fun _ => some ⟨some "admin", none⟩)
      ⟨some "T", some "A", some (JSNum.fin 10), none, []⟩ BackendResult.ok =
      ⟨201, some ⟨some "T", some "A", some (JSNum.fin 10), none, []⟩⟩ :=
  ((C5_admin_gate ⟨some "admin", none⟩ "Bearer tok" (fun _ => some ⟨some "admin", none⟩)
      ⟨some "T", some "A", some (JSNum.fin 10), none, []⟩ BackendResult.ok
      (by decide) rfl).2.2 (by decide)).2 (by decide) (by decide) (by decide) (by decide) rfl

/-! ### C6 theorems -/

/-- C6: for a well-formed positive id whose existence lookup returns no
row, the delete controller responds 404 and does not invoke the backend
delete; the backend delete is invoked only when the lookup returned a
row. -/
theorem C6_delete_missing_404 (idStr : String) (id : ℤ) (lookup : Option ProductRow)
    (backend : BackendResult) (hid : parseIntJS idStr = some id) (hpos : 0 < id) :
    (lookup = none → deleteProduct idStr lookup backend = ⟨404, false⟩) ∧
    ((deleteProduct idStr lookup backend).deleteCalled = true → ∃ row, lookup = some row) := by
  have hnle : ¬ id ≤ 0 := by omega
  constructor
  · intro hl
    simp [deleteProduct, hid, hnle, hl]
  · intro hcall
    cases lookup with
    | some row => exact ⟨row, rfl⟩
    | none => simp [deleteProduct, hid, hnle] at hcall

/-- C6 witness: `DELETE /products/7` with no row found responds 404 and
makes no backend delete call. -/
theorem C6_delete_missing_404_witness :
    deleteProduct "7" none BackendResult.ok = ⟨404, false⟩ :=
  (C6_delete_missing_404 "7" 7 none BackendResult.ok (by decide) (by decide)).1 rfl

/-! ### C7 theorems -/

/-- C7: a create request whose numeric price is zero or negative is
answered 400 with no backend call (price 0 fails the truthiness check,
a negative price fails the `price <= 0` check); the backend create is
reached only when title and author are truthy and any numeric price is
strictly positive. -/
theorem C7_create_rejects_nonpositive_price (body : CreateProductData)
    (backend : BackendResult) :
    (∀ q : ℚ, body.price = some (JSNum.fin q) → q ≤ 0 →
      createProduct body backend = ⟨400, none⟩) ∧
    ((createProduct body backend).backendCall ≠ none →
      strTruthy body.title = true ∧ strTruthy body.author = true ∧
      numTruthy body.price = true ∧
      ∀ q : ℚ, body.price = some (JSNum.fin q) → 0 < q) := by
  constructor
  · intro q hq hle
    by_cases h1 : (!strTruthy body.title || !strTruthy body.author ||
        !numTruthy body.price) = true
    · simp [createProduct, h1]
    · have h2 : numLE0 body.price = true := by
        rw [hq]
        simpa [numLE0] using hle
      simp [createProduct, h1, h2]
  · intro hcall
    by_cases h1 : (!strTruthy body.title || !strTruthy body.author ||
        !numTruthy body.price) = true
    · exact absurd (by simp [createProduct, h1]) hcall
    · by_cases h2 : numLE0 body.price = true
      · exact absurd (by simp [createProduct, h1, h2]) hcall
      · have h1f : (!strTruthy body.title || !strTruthy body.author ||
            !numTruthy body.price) = false := by
          cases hx : (!strTruthy body.title || !strTruthy body.author ||
              !numTruthy body.price)
          · rfl
          · exact absurd hx h1
        have hta : strTruthy body.title = true := by
          cases hx : strTruthy body.title
          · rw [hx] at h1f; simp at h1f
          · rfl
        have htb : strTruthy body.author = true := by
          cases hx : strTruthy body.author
          · rw [hx] at h1f; simp at h1f
          · rfl
        have htc : numTruthy body.price = true := by
          cases hx : numTruthy body.price
          · rw [hx] at h1f; simp at h1f
          · rfl
        refine ⟨hta, htb, htc, ?_⟩
        intro q hq
        cases hx : numLE0 body.price
        · rw [hq] at hx
          simp [numLE0, not_le] at hx
          exact hx
        · exact absurd hx h2
  
/-- C7 witness: price 0 is rejected with 400 and no backend call. -/
theorem C7_create_rejects_nonpositive_price_witness :
    createProduct ⟨some "T", some "A", some (JSNum.fin 0), none, []⟩ BackendResult.ok =
      ⟨400, none⟩ :=
  (C7_create_rejects_nonpositive_price
      ⟨some "T", some "A", some (JSNum.fin 0), none, []⟩ BackendResult.ok).1 0 rfl le_rfl

/-! ### C9 theorems -/

/-- C9: whatever the create or update controller passes to the backend
write call is the parsed request body itself, unchanged — no
`ValidationUtils` sanitizer is applied on the write path; meanwhile the
sanitizers themselves WOULD alter such values: `sanitizeHtml` strips an
event-handler pattern from a description, `sanitizeString` strips a
quote, and `sanitizeNumber` rounds the price 10.005 (= 2001/200) to
10.01 (= 1001/100). -/
theorem C9_body_forwarded_unsanitized (body : CreateProductData) (backend : BackendResult)
    (idStr : String) (lookup : Option ProductRow) (b2 : CreateProductData)
    (p : ℤ × CreateProductData)
    (hcr : (createProduct body backend).backendCall = some b2)
    (hup : (updateProduct idStr body lookup backend).backendCall = some p) :
    b2 = body ∧ p.2 = body ∧
    sanitizeHtml (some "onclick=alert(1)") = "alert(1)" ∧
    sanitizeString (some "a\"b") 500 = "ab" ∧
    sanitizeNumber (JSVal.vnum (JSNum.fin (2001 / 200))) = some (1001 / 100) := by
  refine ⟨?_, ?_, by decide, by decide, ?_⟩
  · by_cases h1 : (!strTruthy body.title || !strTruthy body.author ||
        !numTruthy body.price) = true
    · simp [createProduct, h1] at hcr
    · by_cases h2 : numLE0 body.price = true
      · simp [createProduct, h1, h2] at hcr
      · simp [createProduct, h1, h2] at hcr
        exact hcr.symm
  · match hid : parseIntJS idStr with
    | none => simp [updateProduct, hid] at hup
    | some id =>
      by_cases hle : id ≤ 0
      · simp [updateProduct, hid, hle] at hup
      · by_cases h2 : numLE0 body.price = true
        · simp [updateProduct, hid, hle, h2] at hup
        · cases lookup with
          | none => simp [updateProduct, hid, hle, h2] at hup
          | some row =>
            simp [updateProduct, hid, hle, h2] at hup
            rw [← hup]
  · have hq : ¬((2001 / 200 : ℚ) > 999999999 ∨ (2001 / 200 : ℚ) < -999999999) := by
      norm_num
    have hval : sanitizeNumber (JSVal.vnum (JSNum.fin (2001 / 200))) =
        some ((jsMathRound ((2001 / 200 : ℚ) * 100) : ℚ) / 100) := by
      simp [sanitizeNumber, parseFloatJS, hq]
    have harg : (2001 / 200 : ℚ) * 100 + 1 / 2 = ((1001 : ℤ) : ℚ) := by norm_num
    rw [hval, jsMathRound, harg, Int.floor_intCast]
    norm_num

/-- A concrete well-formed body carrying an event-handler pattern in its
description, used to witness C9. -/
def demoBody : CreateProductData :=
  ⟨some "T", some "A", some (JSNum.fin 10), some "onclick=alert(1)", []⟩

/-- C9 witness: the concrete body is forwarded verbatim by both write
controllers while the sanitizers would have altered its fields. -/
theorem C9_body_forwarded_unsanitized_witness :
    demoBody = demoBody ∧ ((1 : ℤ), demoBody).2 = demoBody ∧
    sanitizeHtml (some "onclick=alert(1)") = "alert(1)" ∧
    sanitizeString (some "a\"b") 500 = "ab" ∧
    sanitizeNumber (JSVal.vnum (JSNum.fin (2001 / 200))) = some (1001 / 100) :=
  C9_body_forwarded_unsanitized demoBody BackendResult.ok "1" (some ⟨1⟩) demoBody
    ((1 : ℤ), demoBody) (by decide) (by decide)
